import Mathlib

/-!
# Verification of the piet-direct2d custom font-collection core

Shallow embedding of `piet-direct2d/src/font_loading.rs`.

Modelling conventions:
* A font byte buffer (`Rc<[u8]>` in the source) is a `List Nat`; machine
  integers are `Nat` with explicit `% 2^w` exactly where the source can wrap.
* A Rust panic (out-of-bounds index, `unwrap` on `None`, failed `try_into`)
  is modelled as `none` / an explicit `fault` constructor: the function does
  not return normally there.
* A raw-pointer out-parameter becomes an ordinary return value; the HRESULT
  error codes the source can return are the `HResultError` inductive
  (the source only ever returns `E_INVALIDARG` besides `S_OK`).
* `Cell` / `RefCell` interior mutability becomes explicit state passing:
  a method that mutates returns the updated structure value.
-/

set_option autoImplicit false

/-- The only failing HRESULT the source returns (`E_INVALIDARG`); the spec
names it `InvalidArgument` for the loader and `OutOfRange` for the stream. -/
inductive HResultError
  | invalidArg
deriving DecidableEq, Repr

/-- `type FontData = Rc<[u8]>`: a shared immutable byte buffer. -/
abbrev FontData := List Nat

/-- `DWRITE_FONT_FILE_TYPE` (only the constants the source uses). -/
inductive FontFileType
  | unknown
  | cff
  | truetype
deriving DecidableEq, Repr

/-- `DWRITE_FONT_FACE_TYPE` (only the constants the source uses). -/
inductive FontFaceType
  | unknown
  | cff
  | truetype
deriving DecidableEq, Repr

/-- `u32::from_le_bytes([b0,b1,b2,b3])`: little-endian 32-bit value. -/
def u32_from_le_bytes (b0 b1 b2 b3 : Nat) : Nat :=
  b0 + b1 * 256 + b2 * 65536 + b3 * 16777216

/-- The four out-parameters of `IDWriteFontFile::analyze`. -/
structure AnalyzeOutput where
  isSupportedFileType : Bool
  fileType : FontFileType
  faceType : FontFaceType
  numberOfFaces : Nat
deriving DecidableEq, Repr

/-- `com::class! PietFontFile { data: FontData }`. -/
structure PietFontFile where
  data : FontData
deriving DecidableEq, Repr

/-- `PietFontFile::analyze`.  The source reads
`[self.data[0], self.data[1], self.data[2], self.data[3]]` with unchecked
indexing — on a buffer shorter than 4 bytes it panics, modelled as `none` —
and matches `u32::from_le_bytes(header)` against `0x74727565 | 0x00010000`
(TrueType), `0x4F54544F` (CFF), anything else Unknown; `number_of_faces`
is always written as 1. -/
def PietFontFile.analyze (f : PietFontFile) : Option AnalyzeOutput :=
  match f.data with
  | b0 :: b1 :: b2 :: b3 :: _ =>
    let tag := u32_from_le_bytes b0 b1 b2 b3
    let pair : FontFileType × FontFaceType :=
      if tag = 0x74727565 ∨ tag = 0x00010000 then
        (FontFileType.truetype, FontFaceType.truetype)
      else if tag = 0x4F54544F then
        (FontFileType.cff, FontFaceType.cff)
      else
        (FontFileType.unknown, FontFaceType.unknown)
    let supported : Bool := if pair.1 ≠ FontFileType.unknown then true else false
    some ⟨supported, pair.1, pair.2, 1⟩
  | _ => none

/-- `PietFontFile::get_reference_key`: the key is the buffer address plus
`self.data.len().try_into().unwrap()` (a `u32`; the `unwrap` panics when the
length does not fit, modelled as `none`).  The address is abstracted to the
buffer value itself: two clones of the same `Rc` share one allocation. -/
def PietFontFile.getReferenceKey (f : PietFontFile) : Option (FontData × Nat) :=
  if f.data.length < 4294967296 then some (f.data, f.data.length) else none

/-- `com::class! PietFontFileEnumerator { files, idx: Cell<Option<usize>> }`. -/
structure PietFontFileEnumerator where
  files : List FontData
  idx : Option Nat
deriving DecidableEq, Repr

/-- `PietFontFileEnumerator::move_next`: `next_idx = idx.map(|n| n+1).unwrap_or(0)`,
writes `TRUE` to the out-parameter iff `next_idx < files.len()`, stores
`Some(next_idx)`, always returns `S_OK`. -/
def PietFontFileEnumerator.moveNext (e : PietFontFileEnumerator) :
    Bool × PietFontFileEnumerator :=
  let nextIdx : Nat :=
    match e.idx with
    | some n => n + 1
    | none => 0
  (decide (nextIdx < e.files.length), { e with idx := some nextIdx })

/-- Outcome of `PietFontFileEnumerator::get_current_font_file`:
`ok none` is `S_OK` with the out-parameter left unwritten, `ok (some f)`
is `S_OK` with a font file written, `fault` is a panic. -/
inductive GetCurrentResult
  | ok (file : Option PietFontFile)
  | fault
deriving DecidableEq, Repr

/-- `PietFontFileEnumerator::get_current_font_file`: reads the `Cell` only
(never writes it).  With `idx = None` the `if let` body is skipped and `S_OK`
is returned with no file (the `debug_assert!` fires only in debug builds).
With `idx = Some(i)` it evaluates `self.files.get(idx).cloned().unwrap()`,
which panics when `i` is past the end — modelled as `fault`. -/
def PietFontFileEnumerator.getCurrentFontFile (e : PietFontFileEnumerator) :
    GetCurrentResult :=
  match e.idx with
  | none => GetCurrentResult.ok none
  | some i =>
    match e.files[i]? with
    | some d => GetCurrentResult.ok (some ⟨d⟩)
    | none => GetCurrentResult.fault

/-- `com::class! PietFontFileStream { data: FontData }`. -/
structure PietFontFileStream where
  data : FontData
deriving DecidableEq, Repr

/-- `2^64`: `offset` and `length` of `read_file_fragment` are `UINT64`. -/
def U64_MOD : Nat := 18446744073709551616

/-- `PietFontFileStream::read_file_fragment`: checks
`offset + length > self.data.len() as UINT64` where the sum is unchecked
`u64` addition — it wraps modulo `2^64` in release builds (modelled by the
explicit `% U64_MOD`; debug builds panic on overflow instead) — and on
success publishes the pointer `data.as_ptr().add(offset)`, i.e. the byte
range `[offset, offset+length)`, modelled as `(drop offset).take length`. -/
def PietFontFileStream.readFileFragment (s : PietFontFileStream)
    (offset length : Nat) : Except HResultError FontData :=
  if (offset + length) % U64_MOD > s.data.length then
    Except.error HResultError.invalidArg
  else
    Except.ok ((s.data.drop offset).take length)

/-- `PietFontFileStream::get_file_size`. -/
def PietFontFileStream.getFileSize (s : PietFontFileStream) : Nat :=
  s.data.length

/-- `PietFontFileStream::get_last_write_time`: constant sentinel. -/
def PietFontFileStream.getLastWriteTime (_s : PietFontFileStream) : Nat := 10

/-- `com::class! PietFontFileLoader { data: FontData }`. -/
structure PietFontFileLoader where
  data : FontData
deriving DecidableEq, Repr

/-- `PietFontFileLoader::create_stream_from_key`: returns `E_INVALIDARG`
iff `key_size as usize != self.data.len()`; the key bytes (`_file_key`)
are never inspected.  `keySize` is a `UINT32`. -/
def PietFontFileLoader.createStreamFromKey (l : PietFontFileLoader)
    (fileKey : FontData) (keySize : Nat) : Except HResultError PietFontFileStream :=
  if keySize ≠ l.data.length then Except.error HResultError.invalidArg
  else Except.ok ⟨l.data⟩

/-- `com::class! PietFontCollectionLoader { fonts: RefCell<Rc<Vec<FontData>>> }`:
the live Buffer Store. -/
structure PietFontCollectionLoader where
  fonts : List FontData
deriving DecidableEq, Repr

/-- `PietFontCollectionLoader::create_enumerator_from_key`: ignores the key,
clones the current `Rc<Vec<FontData>>` out of the `RefCell` (a snapshot: the
enumerator owns that clone) and builds an enumerator with `idx = None`. -/
def PietFontCollectionLoader.createEnumeratorFromKey
    (store : PietFontCollectionLoader) : PietFontFileEnumerator :=
  ⟨store.fonts, none⟩

/-- Modelled from the spec: `register(bytes)` of the Buffer Store ("appends a
new shared Buffer; never fails").  The mutation of the live store is done by
the surrounding library, outside the shown source; per the `Rc`/`RefCell`
layout it installs a new `Rc<Vec<..>>` in the cell, leaving every previously
cloned `Rc` (enumerator snapshots) untouched. -/
def PietFontCollectionLoader.register (store : PietFontCollectionLoader)
    (bytes : FontData) : PietFontCollectionLoader :=
  ⟨store.fonts ++ [bytes]⟩

/-- Modelled from the spec: `replace_all(buffers)` ("atomically swaps the
entire sequence; in-flight Snapshots are unaffected"). -/
def PietFontCollectionLoader.replaceAll (_store : PietFontCollectionLoader)
    (buffers : List FontData) : PietFontCollectionLoader :=
  ⟨buffers⟩

/-- `k` successive `move_next` calls, keeping only the state. -/
def PietFontFileEnumerator.moveNextN (e : PietFontFileEnumerator) :
    Nat → PietFontFileEnumerator
  | 0 => e
  | k + 1 => ((e.moveNextN k).moveNext).2

/-! ## Helper lemmas -/

theorem moveNext_files (e : PietFontFileEnumerator) :
    (e.moveNext).2.files = e.files := rfl

theorem moveNextN_files (e : PietFontFileEnumerator) (k : Nat) :
    (e.moveNextN k).files = e.files := by
  induction k with
  | zero => rfl
  | succ k ih =>
    simp [PietFontFileEnumerator.moveNextN, moveNext_files, ih]

theorem moveNextN_idx (files : List FontData) (k : Nat) :
    ((⟨files, none⟩ : PietFontFileEnumerator).moveNextN (k + 1)).idx = some k := by
  induction k with
  | zero => rfl
  | succ k ih =>
    show (((⟨files, none⟩ : PietFontFileEnumerator).moveNextN (k + 1)).moveNext).2.idx
        = some (k + 1)
    simp [PietFontFileEnumerator.moveNext, ih]

theorem moveNext_ret (e : PietFontFileEnumerator) (i : Nat) (h : e.idx = some i) :
    (e.moveNext).1 = decide (i + 1 < e.files.length) := by
  simp [PietFontFileEnumerator.moveNext, h]

theorem moveNextN_state (files : List FontData) (k : Nat) :
    (⟨files, none⟩ : PietFontFileEnumerator).moveNextN (k + 1) = ⟨files, some k⟩ := by
  induction k with
  | zero => rfl
  | succ k ih =>
    show (((⟨files, none⟩ : PietFontFileEnumerator).moveNextN (k + 1)).moveNext).2 = _
    rw [ih]
    rfl

theorem moveNextN_ret (files : List FontData) (k : Nat) :
    (((⟨files, none⟩ : PietFontFileEnumerator).moveNextN k).moveNext).1 =
      decide (k < files.length) := by
  cases k with
  | zero => rfl
  | succ k =>
    have h := moveNextN_idx files k
    rw [moveNext_ret _ k h, moveNextN_files]

/-! ## Claims -/

/-- Claim C1: the spec says `analyze()` interprets the first 4 bytes as a
**big-endian** 32-bit tag, so that a buffer beginning `[0x00,0x01,0x00,0x00]`
is TrueType + supported.  The source reads the header with
`u32::from_le_bytes`, so that buffer yields tag `0x00000100`, reported
Unknown + unsupported; only the palindromic `OTTO` tag still matches.  This
theorem evaluates the code at the failing input (and shows the CFF half of
the claim does hold). -/
theorem analyze_little_endian_bug :
    PietFontFile.analyze ⟨[0x00, 0x01, 0x00, 0x00]⟩ =
      some ⟨false, FontFileType.unknown, FontFaceType.unknown, 1⟩ ∧
    PietFontFile.analyze ⟨[0x4F, 0x54, 0x54, 0x4F]⟩ =
      some ⟨true, FontFileType.cff, FontFaceType.cff, 1⟩ := by
  constructor <;> rfl

/-- Claim C2: the spec requires a buffer shorter than 4 bytes to yield
supported = false and file type Unknown without faulting; the source indexes
`self.data[0] ..= self.data[3]` unconditionally, so `analyze` panics
(out-of-bounds index) on the empty buffer and on a 2-byte buffer — modelled
as `none`, never a normal return. -/
theorem analyze_short_buffer_fault :
    PietFontFile.analyze ⟨[]⟩ = none ∧
    PietFontFile.analyze ⟨[0x00, 0x01]⟩ = none := by
  constructor <;> rfl

/-- Claim C3: the spec requires `offset + length <= L` to be computed with
overflow-safe arithmetic, rejecting huge values with OutOfRange.  The source
computes the unchecked `u64` sum `offset + length`, which wraps: with
`offset = 2^64 - 1`, `length = 2` over a 1-byte buffer the true sum
`2^64 + 1` exceeds the length, yet the wrapped sum is `1 ≤ 1` and the call
returns success — a false success (the subsequent pointer `add(offset)` is
out of bounds; debug builds panic on the addition instead). -/
theorem readFileFragment_overflow_bug :
    (U64_MOD - 1) + 2 > 1 ∧
    PietFontFileStream.readFileFragment ⟨[0xAA]⟩ (U64_MOD - 1) 2 =
      Except.ok [] := by
  constructor
  · decide
  · rfl

/-- Claim C4: the spec requires `get_current_font_file` to fail with an
`InvalidState` error both before any `move_next` and after `move_next`
returned false.  The source does neither: with `idx = None` (no `move_next`
yet) the `if let` is skipped and it returns `S_OK` with no file written; after
`move_next` returned false (`idx` past the end) it calls
`files.get(idx).cloned().unwrap()` and panics.  Evaluated on a fresh
enumerator and on an exhausted one-buffer enumerator. -/
theorem getCurrentFontFile_no_invalid_state :
    PietFontFileEnumerator.getCurrentFontFile ⟨[[0x01]], none⟩ =
      GetCurrentResult.ok none ∧
    PietFontFileEnumerator.getCurrentFontFile ⟨[[0x01]], some 1⟩ =
      GetCurrentResult.fault := by
  constructor <;> rfl

/-- Claim C5: on an enumerator over `N` buffers, successive `move_next`
calls return true exactly `N` times and then false forever: the `(k+1)`-th
call returns `k < N`, and the cursor after `k+1` calls is `Some k` — it
strictly advances, never erring (the source always returns `S_OK`) and never
wrapping back. -/
theorem moveNext_true_exactly_n (files : List FontData) (k : Nat) :
    (((⟨files, none⟩ : PietFontFileEnumerator).moveNextN k).moveNext).1 =
      decide (k < files.length) ∧
    ((⟨files, none⟩ : PietFontFileEnumerator).moveNextN (k + 1)).idx = some k :=
  ⟨moveNextN_ret files k, moveNextN_idx files k⟩

/-- Claim C6: `create_stream_from_key` fails with `E_INVALIDARG` exactly when
`key_size` differs from the wrapped buffer's length, and succeeds whenever it
is equal, regardless of the key bytes (which are never inspected): the result
is the same for any two key contents. -/
theorem createStreamFromKey_length_only (l : PietFontFileLoader)
    (key : FontData) (keySize : Nat) (hks : keySize < 4294967296) :
    (l.createStreamFromKey key keySize = Except.error HResultError.invalidArg ↔
      keySize ≠ l.data.length) ∧
    (keySize = l.data.length → l.createStreamFromKey key keySize = Except.ok ⟨l.data⟩) ∧
    (∀ key2 : FontData, l.createStreamFromKey key2 keySize = l.createStreamFromKey key keySize) := by
  refine ⟨?_, ?_, ?_⟩
  · constructor
    · intro h hne
      simp [PietFontFileLoader.createStreamFromKey, hne] at h
    · intro hne
      simp [PietFontFileLoader.createStreamFromKey, hne]
  · intro heq
    simp [PietFontFileLoader.createStreamFromKey, heq]
  · intro key2
    simp [PietFontFileLoader.createStreamFromKey]

/-- Witness for C6: a concrete loader over a 2-byte buffer. -/
theorem createStreamFromKey_length_only_witness :
    ((⟨[7, 8]⟩ : PietFontFileLoader).createStreamFromKey [9, 9] 2 =
        Except.error HResultError.invalidArg ↔ (2 : Nat) ≠ 2) ∧
    ((2 : Nat) = 2 → (⟨[7, 8]⟩ : PietFontFileLoader).createStreamFromKey [9, 9] 2 =
        Except.ok ⟨[7, 8]⟩) ∧
    (∀ key2 : FontData, (⟨[7, 8]⟩ : PietFontFileLoader).createStreamFromKey key2 2 =
        (⟨[7, 8]⟩ : PietFontFileLoader).createStreamFromKey [9, 9] 2) :=
  createStreamFromKey_length_only ⟨[7, 8]⟩ [9, 9] 2 (by decide)

/-- Claim C7: snapshot isolation.  `create_enumerator_from_key` clones the
store's `Rc` at creation time, so the enumerator's snapshot equals the
creation-time sequence; a later `register` (or `replace_all`) installs a new
sequence in the live store without touching the enumerator, whose
observations — `move_next` results, cursor, `get_current_font_file` — remain
those of the creation-time sequence.  In particular, over a store of `N`
buffers, the `(N+1)`-th `move_next` still returns false even though the live
store now holds `N + 1` buffers. -/
theorem enumerator_snapshot_isolation (store : PietFontCollectionLoader)
    (bytes : FontData) (k : Nat) :
    (store.createEnumeratorFromKey).files = store.fonts ∧
    (store.register bytes).fonts = store.fonts ++ [bytes] ∧
    (store.replaceAll [bytes]).fonts = [bytes] ∧
    (((store.createEnumeratorFromKey).moveNextN k).moveNext).1 =
      decide (k < store.fonts.length) ∧
    (∀ j, j < store.fonts.length →
      ((store.createEnumeratorFromKey).moveNextN (j + 1)).getCurrentFontFile =
        GetCurrentResult.ok ((store.fonts[j]?).map PietFontFile.mk)) ∧
    (((store.createEnumeratorFromKey).moveNextN store.fonts.length).moveNext).1 = false ∧
    store.fonts.length < (store.register bytes).fonts.length := by
  refine ⟨rfl, rfl, rfl, ?_, ?_, ?_, ?_⟩
  · exact moveNextN_ret store.fonts k
  · intro j hj
    have h : store.fonts[j]? = some store.fonts[j] := List.getElem?_eq_getElem hj
    show (((⟨store.fonts, none⟩ : PietFontFileEnumerator).moveNextN
        (j + 1)).getCurrentFontFile) = _
    rw [moveNextN_state store.fonts j]
    simp [PietFontFileEnumerator.getCurrentFontFile, h]
  · show (((⟨store.fonts, none⟩ : PietFontFileEnumerator).moveNextN
        store.fonts.length).moveNext).1 = false
    rw [moveNextN_ret store.fonts store.fonts.length]
    simp
  · simp [PietFontCollectionLoader.register]

/-- Witness for C7: a one-buffer store, a later registration of a second
buffer, and the enumerator created before it. -/
theorem enumerator_snapshot_isolation_witness :
    ((⟨[[5]]⟩ : PietFontCollectionLoader).createEnumeratorFromKey).files = [[5]] ∧
    ((⟨[[5]]⟩ : PietFontCollectionLoader).register [6]).fonts = [[5], [6]] ∧
    ((⟨[[5]]⟩ : PietFontCollectionLoader).replaceAll [[6]]).fonts = [[6]] ∧
    ((((⟨[[5]]⟩ : PietFontCollectionLoader).createEnumeratorFromKey).moveNextN 0).moveNext).1 =
      true ∧
    (∀ j, j < 1 →
      ((((⟨[[5]]⟩ : PietFontCollectionLoader).createEnumeratorFromKey).moveNextN
          (j + 1)).getCurrentFontFile) =
        GetCurrentResult.ok ((([[5]] : List FontData)[j]?).map PietFontFile.mk)) ∧
    ((((⟨[[5]]⟩ : PietFontCollectionLoader).createEnumeratorFromKey).moveNextN 1).moveNext).1 =
      false ∧
    (1 : Nat) < 2 :=
  enumerator_snapshot_isolation ⟨[[5]]⟩ [6] 0

/-- Claim C8: the spec says an unrecognized tag, or a buffer shorter than 4
bytes, yields Unknown, unsupported, face_count = 0.  The source panics
(unchecked indexing, modelled as `none`) on the short buffer, and for a
recognized-length buffer with an unrecognized tag it writes
`number_of_faces = 1`, never 0 (the source comment reads "could be 0 if
unsupported? seems unlikely to matter"). -/
theorem analyze_unknown_reports_one_face :
    PietFontFile.analyze ⟨[0x00]⟩ = none ∧
    PietFontFile.analyze ⟨[0xFF, 0xFF, 0xFF, 0xFF]⟩ =
      some ⟨false, FontFileType.unknown, FontFaceType.unknown, 1⟩ := by
  constructor <;> rfl

/-- Claim C9: for in-bounds requests `read_file_fragment` returns exactly the
bytes `B[offset .. offset+length)`: the fragment has length `length` and its
`i`-th byte is `B[offset + i]`; `read_file_fragment(0, len B)` returns the
whole registered buffer, and `read_file_fragment(1, len B)` fails with
`E_INVALIDARG` (the spec's OutOfRange) for non-empty `B`.  The length bound
reflects that a real buffer's `usize` length keeps `1 + len` from wrapping. -/
theorem readFileFragment_exact_bytes (s : PietFontFileStream)
    (offset length : Nat) (hL : s.data.length + 1 < U64_MOD) :
    (offset + length ≤ s.data.length →
      s.readFileFragment offset length = Except.ok ((s.data.drop offset).take length) ∧
      ((s.data.drop offset).take length).length = length ∧
      ∀ i, i < length → ((s.data.drop offset).take length)[i]? = s.data[offset + i]?) ∧
    s.readFileFragment 0 s.data.length = Except.ok s.data ∧
    (0 < s.data.length →
      s.readFileFragment 1 s.data.length = Except.error HResultError.invalidArg) := by
  refine ⟨?_, ?_, ?_⟩
  · intro hin
    have hmod : (offset + length) % U64_MOD = offset + length :=
      Nat.mod_eq_of_lt (lt_of_le_of_lt hin (Nat.lt_of_succ_lt hL))
    refine ⟨?_, ?_, ?_⟩
    · simp [PietFontFileStream.readFileFragment, hmod, Nat.not_lt_of_le hin]
    · rw [List.length_take, List.length_drop]
      omega
    · intro i hi
      rw [List.getElem?_take_of_lt hi, List.getElem?_drop]
  · have hmod : (0 + s.data.length) % U64_MOD = s.data.length := by
      rw [Nat.zero_add]
      exact Nat.mod_eq_of_lt (Nat.lt_of_succ_lt hL)
    simp [PietFontFileStream.readFileFragment, hmod]
    exact Nat.mod_le _ _
  · intro hpos
    have hmod : (1 + s.data.length) % U64_MOD = 1 + s.data.length :=
      Nat.mod_eq_of_lt (by omega)
    simp [PietFontFileStream.readFileFragment, hmod]

/-- Witness for C9: a concrete 3-byte stream, reading bytes 1..3. -/
theorem readFileFragment_exact_bytes_witness :
    ((1 + 2 ≤ ([3, 4, 5] : FontData).length →
      (⟨[3, 4, 5]⟩ : PietFontFileStream).readFileFragment 1 2 =
        Except.ok ((([3, 4, 5] : FontData).drop 1).take 2) ∧
      ((([3, 4, 5] : FontData).drop 1).take 2).length = 2 ∧
      ∀ i, i < 2 → ((([3, 4, 5] : FontData).drop 1).take 2)[i]? =
        ([3, 4, 5] : FontData)[1 + i]?) ∧
    (⟨[3, 4, 5]⟩ : PietFontFileStream).readFileFragment 0 ([3, 4, 5] : FontData).length =
      Except.ok [3, 4, 5] ∧
    (0 < ([3, 4, 5] : FontData).length →
      (⟨[3, 4, 5]⟩ : PietFontFileStream).readFileFragment 1 ([3, 4, 5] : FontData).length =
        Except.error HResultError.invalidArg)) :=
  readFileFragment_exact_bytes ⟨[3, 4, 5]⟩ 1 2 (by decide)

/-- Claim C10: `get_current_font_file` only reads the cursor `Cell` (it never
writes it), so in the embedding it is a pure function of the enumerator
state: when the last `move_next` returned true (`idx = Some i` with
`i < files.len()`), every call succeeds with a font file wrapping the buffer
at the cursor index, and any two calls return files over the same buffer,
hence with equal reference keys. -/
theorem getCurrentFontFile_stable (e : PietFontFileEnumerator) (i : Nat)
    (hidx : e.idx = some i) (hi : i < e.files.length) :
    e.getCurrentFontFile = GetCurrentResult.ok (some ⟨e.files.get ⟨i, hi⟩⟩) ∧
    ∀ f g : PietFontFile,
      e.getCurrentFontFile = GetCurrentResult.ok (some f) →
      e.getCurrentFontFile = GetCurrentResult.ok (some g) →
      f.data = g.data ∧ f.getReferenceKey = g.getReferenceKey := by
  have hget : e.files[i]? = some (e.files.get ⟨i, hi⟩) := by
    rw [List.getElem?_eq_getElem hi]
    rfl
  have hok : e.getCurrentFontFile = GetCurrentResult.ok (some ⟨e.files.get ⟨i, hi⟩⟩) := by
    simp [PietFontFileEnumerator.getCurrentFontFile, hidx, hget]
  refine ⟨hok, ?_⟩
  intro f g hf hg
  rw [hf] at hg
  have : f = g := by
    injection hg with h1
    injection h1
  subst this
  exact ⟨rfl, rfl⟩

/-- Witness for C10: a one-buffer enumerator positioned at index 0. -/
theorem getCurrentFontFile_stable_witness :
    ((⟨[[1, 2]], some 0⟩ : PietFontFileEnumerator).getCurrentFontFile =
      GetCurrentResult.ok (some ⟨([[1, 2]] : List FontData).get ⟨0, by decide⟩⟩) ∧
    ∀ f g : PietFontFile,
      (⟨[[1, 2]], some 0⟩ : PietFontFileEnumerator).getCurrentFontFile =
        GetCurrentResult.ok (some f) →
      (⟨[[1, 2]], some 0⟩ : PietFontFileEnumerator).getCurrentFontFile =
        GetCurrentResult.ok (some g) →
      f.data = g.data ∧ f.getReferenceKey = g.getReferenceKey) :=
  getCurrentFontFile_stable ⟨[[1, 2]], some 0⟩ 0 rfl (by decide)
